import Mathlib

/-!
Verification of the Todo API request-handling core (`src/app.js`).

The embedding models the in-memory store (`let todos = []; let nextId = 1`),
the five todo route handlers (GET collection, GET by id, POST, PUT, DELETE)
and the correlation-id middleware.  JSON request bodies are modelled with
`Option` fields (`undefined` = `none`); the result of `parseInt` on the `:id`
path segment is modelled as `Option Int` (`none` = `NaN`).  Timestamps
(`new Date().toISOString()`, `Date.now()`) and the `Math.random` suffix enter
the handlers as opaque string parameters.
-/

namespace TodoApp

/-! ### JavaScript `String.prototype.trim` -/

/-- Model of JavaScript `String.prototype.trim` on a character list:
drop leading whitespace, then drop trailing whitespace. -/
def jsTrimList (cs : List Char) : List Char :=
  (((cs.dropWhile Char.isWhitespace).reverse.dropWhile Char.isWhitespace)).reverse

/-- Model of JavaScript `title.trim()`. -/
def jsTrim (s : String) : String :=
  ⟨jsTrimList s.data⟩

/-! ### Data model -/

/-- A todo record as built by `POST /todos`:
`{ id, title, completed, createdAt }`. -/
structure Todo where
  id : Nat
  title : String
  completed : Bool
  createdAt : String
deriving Repr, DecidableEq

/-- The in-memory store: `let todos = []` and `let nextId = 1`. -/
structure Store where
  todos : List Todo
  nextId : Nat
deriving Repr, DecidableEq

/-- The store at process start. -/
def initStore : Store := { todos := [], nextId := 1 }

/-- JSON response bodies produced by the todo handlers. -/
inductive Body where
  /-- a single todo record -/
  | todoB : Todo → Body
  /-- `{ error: msg }` -/
  | errB : String → Body
  /-- `{ todos, count }` -/
  | listB : List Todo → Nat → Body
  /-- `{ message, todo }` as sent by the DELETE handler -/
  | deleteB : String → Todo → Body
deriving Repr, DecidableEq

/-- An HTTP response: status code and JSON body. -/
structure Response where
  status : Nat
  body : Body
deriving Repr, DecidableEq

/-! ### Handlers -/

/-- The comparison `t.id === parseInt(req.params.id)`: against `NaN`
(`pid = none`) every comparison is false. -/
def matchesId (pid : Option Int) (t : Todo) : Bool :=
  match pid with
  | none => false
  | some n => (t.id : Int) == n

/-- `todos.find(t => t.id === parseInt(req.params.id))`. -/
def findTodo (todos : List Todo) (pid : Option Int) : Option Todo :=
  todos.find? (matchesId pid)

/-- `GET /todos`: `res.json({ todos, count: todos.length })`. -/
def getTodos (s : Store) : Response × Store :=
  ({ status := 200, body := Body.listB s.todos s.todos.length }, s)

/-- `GET /todos/:id`: 404 when the find misses, otherwise the record. -/
def getTodoById (s : Store) (pid : Option Int) : Response × Store :=
  match findTodo s.todos pid with
  | none => ({ status := 404, body := Body.errB "Todo not found" }, s)
  | some t => ({ status := 200, body := Body.todoB t }, s)

/-- `POST /todos`: validate `!title || title.trim() === ''`, else build
`{ id: nextId++, title: title.trim(), completed: false, createdAt: now }`
and push it.  For a string `title`, `!title` holds exactly when it is `""`. -/
def postTodos (s : Store) (otitle : Option String) (now : String) :
    Response × Store :=
  match otitle with
  | none => ({ status := 400, body := Body.errB "Title is required" }, s)
  | some title =>
    if title = "" ∨ jsTrim title = "" then
      ({ status := 400, body := Body.errB "Title is required" }, s)
    else
      let todo : Todo :=
        { id := s.nextId, title := jsTrim title, completed := false,
          createdAt := now }
      ({ status := 201, body := Body.todoB todo },
       { todos := s.todos ++ [todo], nextId := s.nextId + 1 })

/-- The PUT handler's field updates on the found record:
`if (title !== undefined) todo.title = title;`
`if (completed !== undefined) todo.completed = completed;` -/
def updTodo (t : Todo) (otitle : Option String) (ocompleted : Option Bool) :
    Todo :=
  { t with title := otitle.getD t.title,
           completed := ocompleted.getD t.completed }

/-- Apply `f` to the first element satisfying `p`; the PUT handler mutates
the object returned by `todos.find`, i.e. the first match, in place. -/
def updateFirst (l : List Todo) (p : Todo → Bool) (f : Todo → Todo) :
    List Todo :=
  match l with
  | [] => []
  | x :: xs => if p x then f x :: xs else x :: updateFirst xs p f

/-- `PUT /todos/:id`: 404 when the find misses, otherwise overwrite the
provided fields on the found record and return it. -/
def putTodo (s : Store) (pid : Option Int) (otitle : Option String)
    (ocompleted : Option Bool) : Response × Store :=
  match findTodo s.todos pid with
  | none => ({ status := 404, body := Body.errB "Todo not found" }, s)
  | some t =>
    ({ status := 200, body := Body.todoB (updTodo t otitle ocompleted) },
     { todos := updateFirst s.todos (matchesId pid)
                  (fun u => updTodo u otitle ocompleted),
       nextId := s.nextId })

/-- Remove the first element satisfying `p`, returning it and the rest:
models `todos.findIndex(...)` followed by `todos.splice(index, 1)[0]`. -/
def removeFirst (l : List Todo) (p : Todo → Bool) :
    Option (Todo × List Todo) :=
  match l with
  | [] => none
  | x :: xs =>
    if p x then some (x, xs)
    else (removeFirst xs p).map (fun d => (d.1, x :: d.2))

/-- `DELETE /todos/:id`: 404 when `findIndex` returns `-1`, otherwise splice
the record out and answer `{ message: 'Todo deleted successfully', todo }`. -/
def deleteTodo (s : Store) (pid : Option Int) : Response × Store :=
  match removeFirst s.todos (matchesId pid) with
  | none => ({ status := 404, body := Body.errB "Todo not found" }, s)
  | some (d, rest) =>
    ({ status := 200, body := Body.deleteB "Todo deleted successfully" d },
     { todos := rest, nextId := s.nextId })

/-! ### Correlation-id middleware -/

/-- `req.headers['x-correlation-id'] || Date.now() + '-' + randomSuffix`:
an absent or empty (falsy) header is replaced by the generated id. -/
def correlationId (header : Option String) (nowMs randSuffix : String) :
    String :=
  match header with
  | some h => if h = "" then nowMs ++ "-" ++ randSuffix else h
  | none => nowMs ++ "-" ++ randSuffix

/-- Response headers of a batch of requests, each given as
(inbound `X-Correlation-ID` header, `Date.now()` string, random suffix). -/
def responseHeaders (reqs : List (Option String × String × String)) :
    List String :=
  reqs.map fun q => correlationId q.1 q.2.1 q.2.2

/-! ### Request sequences and reachability -/

/-- A store-mutating request: the three verbs that can change `todos`. -/
inductive Req where
  | post (otitle : Option String) (now : String)
  | put (pid : Option Int) (otitle : Option String) (ocompleted : Option Bool)
  | del (pid : Option Int)
deriving Repr, DecidableEq

/-- Dispatch a request to its handler. -/
def applyReq (s : Store) : Req → Response × Store
  | Req.post otitle now => postTodos s otitle now
  | Req.put pid otitle ocompleted => putTodo s pid otitle ocompleted
  | Req.del pid => deleteTodo s pid

/-- The store after handling one request. -/
def stepStore (s : Store) (r : Req) : Store :=
  (applyReq s r).2

/-- The store after a sequence of requests. -/
def runReqs (s : Store) (rs : List Req) : Store :=
  rs.foldl stepStore s

/-- A store state reachable from process start by some request sequence. -/
def Reachable (s : Store) : Prop :=
  ∃ rs : List Req, runReqs initStore rs = s

/-- One step of the instrumented run: alongside the store, log the id
consumed by each successful create (`id: nextId++`). -/
def stepLog (p : Store × List Nat) (r : Req) : Store × List Nat :=
  let q := applyReq p.1 r
  (q.2, if q.1.status = 201 then p.2 ++ [p.1.nextId] else p.2)

/-- Run from process start, collecting the issued ids in order. -/
def runLog (rs : List Req) : Store × List Nat :=
  rs.foldl stepLog (initStore, [])

/-! ### Specification predicates -/

/-- The data-model invariant on titles: non-empty and not whitespace-only,
i.e. still non-empty after trimming. -/
def titlesValid (s : Store) : Prop :=
  ∀ t ∈ s.todos, jsTrim t.title ≠ ""

/-- Is a request unable to blank a title?  Only a PUT whose supplied title
is empty after trimming can; any other request, including a PUT with a
valid title, keeps the title invariant. -/
def keepsTitle : Req → Bool
  | Req.put _ (some v) _ => jsTrim v != ""
  | _ => true

/-- Structural invariant of the store: ids are strictly increasing along the
list (hence unique and in creation order), positive, below the counter, and
the counter stays positive. -/
def StoreWF (s : Store) : Prop :=
  List.Pairwise (· < ·) (s.todos.map Todo.id) ∧
  (∀ t ∈ s.todos, 1 ≤ t.id ∧ t.id < s.nextId) ∧
  1 ≤ s.nextId

/-- Invariant of the instrumented run: exactly the ids `1, …, nextId - 1`
have been issued, in order. -/
def LogWF (p : Store × List Nat) : Prop :=
  p.1.nextId = p.2.length + 1 ∧ p.2 = List.range' 1 p.2.length

/-! ### Concrete states used as witness data -/

/-- A sample record, as created by a first successful POST. -/
def demoTodo : Todo :=
  { id := 1, title := "a", completed := false, createdAt := "T0" }

/-- A store holding exactly `demoTodo`, counter at 2. -/
def demoStore : Store := { todos := [demoTodo], nextId := 2 }

/-- The store after one successful POST from process start. -/
def postedStore : Store :=
  runReqs initStore [Req.post (some "x") "T0"]

/-- The store after a POST followed by a PUT that overwrites the title with
whitespace. -/
def blankTitleStore : Store :=
  runReqs initStore
    [Req.post (some "buy milk") "2024-01-01T00:00:00.000Z",
     Req.put (some 1) (some "   ") none]

/-! ### Lemmas about `jsTrim` -/

theorem jsTrimList_eq_rdropWhile (cs : List Char) :
    jsTrimList cs =
      List.rdropWhile Char.isWhitespace (cs.dropWhile Char.isWhitespace) :=
  rfl

theorem exists_append_rdropWhile (w : Char → Bool) (l : List Char) :
    ∃ t, l = List.rdropWhile w l ++ t := by
  refine ⟨List.rtakeWhile w l, ?_⟩
  unfold List.rdropWhile List.rtakeWhile
  rw [← List.reverse_append, List.takeWhile_append_dropWhile,
    List.reverse_reverse]

theorem jsTrimList_head_not (cs : List Char) (x : Char) (xs : List Char)
    (h : jsTrimList cs = x :: xs) : x.isWhitespace = false := by
  obtain ⟨t, ht⟩ :=
    exists_append_rdropWhile Char.isWhitespace (cs.dropWhile Char.isWhitespace)
  rw [jsTrimList_eq_rdropWhile] at h
  rw [h] at ht
  have hne : cs.dropWhile Char.isWhitespace ≠ [] := by
    rw [ht]; simp
  have h2 := List.head_dropWhile_not Char.isWhitespace cs hne
  simp only [ht, List.cons_append, List.head_cons] at h2
  exact h2

theorem jsTrimList_idem (cs : List Char) :
    jsTrimList (jsTrimList cs) = jsTrimList cs := by
  cases h : jsTrimList cs with
  | nil => rfl
  | cons x xs =>
    have hwx := jsTrimList_head_not cs x xs h
    have h1 : jsTrimList (x :: xs) =
        List.rdropWhile Char.isWhitespace (x :: xs) := by
      rw [jsTrimList_eq_rdropWhile]
      simp [List.dropWhile_cons, hwx]
    rw [h1, ← h, jsTrimList_eq_rdropWhile]
    exact List.rdropWhile_idempotent Char.isWhitespace
      (cs.dropWhile Char.isWhitespace)

theorem jsTrim_idem (s : String) : jsTrim (jsTrim s) = jsTrim s :=
  congrArg String.mk (jsTrimList_idem s.data)

theorem jsTrim_empty : jsTrim "" = "" := rfl

theorem ne_empty_of_jsTrim_ne (t : String) (h : jsTrim t ≠ "") : t ≠ "" :=
  fun he => h (by rw [he]; rfl)

/-! ### Lemmas about `updateFirst` and `removeFirst` -/

theorem updateFirst_map {α : Type} (l : List Todo) (p : Todo → Bool)
    (f : Todo → Todo) (g : Todo → α) (hg : ∀ x, g (f x) = g x) :
    (updateFirst l p f).map g = l.map g := by
  induction l with
  | nil => rfl
  | cons x xs ih =>
    unfold updateFirst
    by_cases hp : p x
    · simp [hp, hg]
    · simp [hp, ih]

theorem mem_updateFirst (l : List Todo) (p : Todo → Bool) (f : Todo → Todo)
    (u : Todo) (hu : u ∈ updateFirst l p f) : u ∈ l ∨ ∃ x ∈ l, u = f x := by
  induction l with
  | nil => simp [updateFirst] at hu
  | cons x xs ih =>
    unfold updateFirst at hu
    by_cases hp : p x
    · rw [if_pos hp] at hu
      rcases List.mem_cons.mp hu with h | h
      · exact Or.inr ⟨x, by simp, h⟩
      · exact Or.inl (by simp [h])
    · rw [if_neg hp] at hu
      rcases List.mem_cons.mp hu with h | h
      · exact Or.inl (by simp [h])
      · rcases ih h with h2 | ⟨y, hy, he⟩
        · exact Or.inl (by simp [h2])
        · exact Or.inr ⟨y, by simp [hy], he⟩

theorem removeFirst_eq_none_of (l : List Todo) (p : Todo → Bool)
    (h : ∀ x ∈ l, p x = false) : removeFirst l p = none := by
  induction l with
  | nil => rfl
  | cons x xs ih =>
    unfold removeFirst
    rw [h x (by simp)]
    simp only [Bool.false_eq_true, if_false]
    rw [ih (fun y hy => h y (by simp [hy]))]
    rfl

theorem forall_false_of_removeFirst_none (l : List Todo) (p : Todo → Bool)
    (h : removeFirst l p = none) : ∀ x ∈ l, p x = false := by
  induction l with
  | nil => simp
  | cons x xs ih =>
    unfold removeFirst at h
    by_cases hp : p x
    · simp [hp] at h
    · rw [if_neg hp, Option.map_eq_none'] at h
      intro y hy
      rcases List.mem_cons.mp hy with h1 | h1
      · rw [h1]; exact Bool.eq_false_iff.mpr hp
      · exact ih h y h1

theorem removeFirst_decomp (l : List Todo) (p : Todo → Bool) (d : Todo)
    (r : List Todo) (h : removeFirst l p = some (d, r)) :
    ∃ l1 l2, l = l1 ++ d :: l2 ∧ r = l1 ++ l2 ∧ p d = true ∧
      ∀ x ∈ l1, p x = false := by
  induction l generalizing r with
  | nil => simp [removeFirst] at h
  | cons x xs ih =>
    unfold removeFirst at h
    by_cases hp : p x
    · rw [if_pos hp] at h
      rw [Option.some_inj, Prod.mk.injEq] at h
      exact ⟨[], xs, by simp [h.1], by simp [h.2], h.1 ▸ hp, by simp⟩
    · rw [if_neg hp] at h
      cases hrm : removeFirst xs p with
      | none => rw [hrm] at h; simp at h
      | some pr =>
        rw [hrm, Option.map_some', Option.some_inj, Prod.mk.injEq] at h
        obtain ⟨l1, l2, e1, e2, e3, e4⟩ := ih pr.2 (by rw [hrm, ← h.1])
        refine ⟨x :: l1, l2, ?_, ?_, ?_, ?_⟩
        · simp [List.cons_append, ← e1]
        · rw [← h.2]
          simp [List.cons_append, ← e2]
        · exact e3
        · intro y hy
          rcases List.mem_cons.mp hy with h1 | h1
          · rw [h1]; exact Bool.eq_false_iff.mpr hp
          · exact e4 y h1

theorem mem_of_removeFirst (l : List Todo) (p : Todo → Bool) (d : Todo)
    (r : List Todo) (h : removeFirst l p = some (d, r)) (u : Todo)
    (hu : u ∈ r) : u ∈ l := by
  obtain ⟨l1, l2, e1, e2, _, _⟩ := removeFirst_decomp l p d r h
  rw [e1]
  rcases List.mem_append.mp (e2 ▸ hu) with h1 | h1
  · exact List.mem_append.mpr (Or.inl h1)
  · exact List.mem_append.mpr (Or.inr (by simp [h1]))

/-! ### Preservation of the structural store invariant -/

theorem storeWF_init : StoreWF initStore := by
  refine ⟨by simp [initStore], by simp [initStore], by simp [initStore]⟩

theorem storeWF_step (s : Store) (r : Req) (h : StoreWF s) :
    StoreWF (stepStore s r) := by
  obtain ⟨hpw, hbnd, hpos⟩ := h
  cases r with
  | post otitle now =>
    cases otitle with
    | none => exact ⟨hpw, hbnd, hpos⟩
    | some title =>
      by_cases hg : title = "" ∨ jsTrim title = ""
      · have hs : stepStore s (Req.post (some title) now) = s := by
          simp [stepStore, applyReq, postTodos, hg]
        rw [hs]; exact ⟨hpw, hbnd, hpos⟩
      · have hs : stepStore s (Req.post (some title) now) =
            { todos := s.todos ++
                [{ id := s.nextId, title := jsTrim title, completed := false,
                   createdAt := now }],
              nextId := s.nextId + 1 } := by
          simp [stepStore, applyReq, postTodos, hg]
        rw [hs]
        unfold StoreWF
        dsimp only
        refine ⟨?_, ?_, by omega⟩
        · rw [List.map_append, List.pairwise_append]
          refine ⟨hpw, by simp, ?_⟩
          intro a ha b hb
          simp only [List.map_cons, List.map_nil, List.mem_singleton] at hb
          subst hb
          obtain ⟨t, ht, rfl⟩ := List.mem_map.mp ha
          exact (hbnd t ht).2
        · intro t ht
          rcases List.mem_append.mp ht with h1 | h1
          · have hb := hbnd t h1
            exact ⟨hb.1, by omega⟩
          · simp only [List.mem_singleton] at h1
            subst h1
            exact ⟨hpos, Nat.lt_succ_self s.nextId⟩
  | put pid otitle oc =>
    cases hf : findTodo s.todos pid with
    | none =>
      have hs : stepStore s (Req.put pid otitle oc) = s := by
        simp [stepStore, applyReq, putTodo, hf]
      rw [hs]; exact ⟨hpw, hbnd, hpos⟩
    | some t =>
      have hs : stepStore s (Req.put pid otitle oc) =
          { todos := updateFirst s.todos (matchesId pid)
              (fun u => updTodo u otitle oc),
            nextId := s.nextId } := by
        simp [stepStore, applyReq, putTodo, hf]
      rw [hs]
      unfold StoreWF
      dsimp only
      refine ⟨?_, ?_, hpos⟩
      · rw [updateFirst_map s.todos (matchesId pid)
          (fun u => updTodo u otitle oc) Todo.id (fun x => rfl)]
        exact hpw
      · intro u hu
        rcases mem_updateFirst _ _ _ u hu with h1 | ⟨x, hx, he⟩
        · exact hbnd u h1
        · rw [he]
          exact hbnd x hx
  | del pid =>
    cases hrm : removeFirst s.todos (matchesId pid) with
    | none =>
      have hs : stepStore s (Req.del pid) = s := by
        simp [stepStore, applyReq, deleteTodo, hrm]
      rw [hs]; exact ⟨hpw, hbnd, hpos⟩
    | some pr =>
      have hs : stepStore s (Req.del pid) =
          { todos := pr.2, nextId := s.nextId } := by
        simp [stepStore, applyReq, deleteTodo, hrm]
      rw [hs]
      unfold StoreWF
      dsimp only
      obtain ⟨l1, l2, e1, e2, _, _⟩ :=
        removeFirst_decomp s.todos (matchesId pid) pr.1 pr.2 (by rw [hrm])
      refine ⟨?_, ?_, hpos⟩
      · have hsub : (l1 ++ l2).Sublist (l1 ++ pr.1 :: l2) :=
          List.Sublist.append_left (List.sublist_cons_self pr.1 l2) l1
        have hmapsub : ((l1 ++ l2).map Todo.id).Sublist
            ((l1 ++ pr.1 :: l2).map Todo.id) := hsub.map Todo.id
        rw [e2]
        exact List.Pairwise.sublist hmapsub (e1 ▸ hpw)
      · intro u hu
        exact hbnd u (mem_of_removeFirst s.todos (matchesId pid) pr.1 pr.2
          (by rw [hrm]) u hu)

theorem storeWF_run (rs : List Req) (s : Store) (h : StoreWF s) :
    StoreWF (runReqs s rs) := by
  induction rs generalizing s with
  | nil => exact h
  | cons r rest ih => exact ih (stepStore s r) (storeWF_step s r h)

theorem reachable_storeWF (s : Store) (h : Reachable s) : StoreWF s := by
  obtain ⟨rs, hrs⟩ := h
  rw [← hrs]
  exact storeWF_run rs initStore storeWF_init

/-! ### Preservation of the title invariant (absent a PUT with a title) -/

theorem titlesValid_init : titlesValid initStore := by
  intro t ht
  simp [initStore] at ht

theorem titlesValid_step (s : Store) (r : Req) (hk : keepsTitle r = true)
    (h : titlesValid s) : titlesValid (stepStore s r) := by
  cases r with
  | post otitle now =>
    cases otitle with
    | none => exact h
    | some title =>
      by_cases hg : title = "" ∨ jsTrim title = ""
      · have hs : stepStore s (Req.post (some title) now) = s := by
          simp [stepStore, applyReq, postTodos, hg]
        rw [hs]; exact h
      · have hs : stepStore s (Req.post (some title) now) =
            { todos := s.todos ++
                [{ id := s.nextId, title := jsTrim title, completed := false,
                   createdAt := now }],
              nextId := s.nextId + 1 } := by
          simp [stepStore, applyReq, postTodos, hg]
        rw [hs]
        intro t ht
        rcases List.mem_append.mp ht with h1 | h1
        · exact h t h1
        · simp only [List.mem_singleton] at h1
          subst h1
          show jsTrim (jsTrim title) ≠ ""
          rw [jsTrim_idem]
          exact fun he => hg (Or.inr he)
  | put pid otitle oc =>
    cases hf : findTodo s.todos pid with
    | none =>
      have hs : stepStore s (Req.put pid otitle oc) = s := by
        simp [stepStore, applyReq, putTodo, hf]
      rw [hs]; exact h
    | some t =>
      have hs : stepStore s (Req.put pid otitle oc) =
          { todos := updateFirst s.todos (matchesId pid)
              (fun u => updTodo u otitle oc),
            nextId := s.nextId } := by
        simp [stepStore, applyReq, putTodo, hf]
      rw [hs]
      intro u hu
      rcases mem_updateFirst _ _ _ u hu with h1 | ⟨x, hx, he⟩
      · exact h u h1
      · rw [he]
        cases otitle with
        | none => exact h x hx
        | some v =>
          show jsTrim v ≠ ""
          simp only [keepsTitle, bne_iff_ne, ne_eq] at hk
          exact hk
  | del pid =>
    cases hrm : removeFirst s.todos (matchesId pid) with
    | none =>
      have hs : stepStore s (Req.del pid) = s := by
        simp [stepStore, applyReq, deleteTodo, hrm]
      rw [hs]; exact h
    | some pr =>
      have hs : stepStore s (Req.del pid) =
          { todos := pr.2, nextId := s.nextId } := by
        simp [stepStore, applyReq, deleteTodo, hrm]
      rw [hs]
      intro u hu
      exact h u (mem_of_removeFirst s.todos (matchesId pid) pr.1 pr.2
        (by rw [hrm]) u hu)

theorem titlesValid_run (rs : List Req) (s : Store)
    (hk : ∀ r ∈ rs, keepsTitle r = true) (h : titlesValid s) :
    titlesValid (runReqs s rs) := by
  induction rs generalizing s with
  | nil => exact h
  | cons r rest ih =>
    exact ih (stepStore s r) (fun q hq => hk q (by simp [hq]))
      (titlesValid_step s r (hk r (by simp)) h)

/-! ### Preservation of the issued-ids log invariant -/

theorem logWF_init : LogWF (initStore, []) := by
  exact ⟨rfl, rfl⟩

theorem logWF_step (p : Store × List Nat) (r : Req) (h : LogWF p) :
    LogWF (stepLog p r) := by
  obtain ⟨h1, h2⟩ := h
  cases r with
  | post otitle now =>
    cases otitle with
    | none => exact ⟨h1, h2⟩
    | some title =>
      by_cases hg : title = "" ∨ jsTrim title = ""
      · have hs : stepLog p (Req.post (some title) now) = (p.1, p.2) := by
          simp [stepLog, applyReq, postTodos, hg]
        rw [hs]; exact ⟨h1, h2⟩
      · have hs : stepLog p (Req.post (some title) now) =
            ({ todos := p.1.todos ++
                [{ id := p.1.nextId, title := jsTrim title,
                   completed := false, createdAt := now }],
               nextId := p.1.nextId + 1 },
             p.2 ++ [p.1.nextId]) := by
          simp [stepLog, applyReq, postTodos, hg]
        rw [hs]
        constructor
        · show p.1.nextId + 1 = (p.2 ++ [p.1.nextId]).length + 1
          simp [h1]
        · show p.2 ++ [p.1.nextId] = List.range' 1 (p.2 ++ [p.1.nextId]).length
          rw [List.length_append, List.length_singleton,
            List.range'_concat 1 p.2.length]
          rw [← h2]
          have : p.1.nextId = 1 + 1 * p.2.length := by omega
          rw [this]
  | put pid otitle oc =>
    cases hf : findTodo p.1.todos pid with
    | none =>
      have hs : stepLog p (Req.put pid otitle oc) = (p.1, p.2) := by
        simp [stepLog, applyReq, putTodo, hf]
      rw [hs]; exact ⟨h1, h2⟩
    | some t =>
      have hs : stepLog p (Req.put pid otitle oc) =
          ({ todos := updateFirst p.1.todos (matchesId pid)
              (fun u => updTodo u otitle oc),
             nextId := p.1.nextId }, p.2) := by
        simp [stepLog, applyReq, putTodo, hf]
      rw [hs]; exact ⟨h1, h2⟩
  | del pid =>
    cases hrm : removeFirst p.1.todos (matchesId pid) with
    | none =>
      have hs : stepLog p (Req.del pid) = (p.1, p.2) := by
        simp [stepLog, applyReq, deleteTodo, hrm]
      rw [hs]; exact ⟨h1, h2⟩
    | some pr =>
      have hs : stepLog p (Req.del pid) =
          ({ todos := pr.2, nextId := p.1.nextId }, p.2) := by
        simp [stepLog, applyReq, deleteTodo, hrm]
      rw [hs]; exact ⟨h1, h2⟩

theorem logWF_runLog (rs : List Req) : LogWF (runLog rs) := by
  have hgen : ∀ (l : List Req) (p : Store × List Nat), LogWF p →
      LogWF (l.foldl stepLog p) := by
    intro l
    induction l with
    | nil => intro p hp; exact hp
    | cons r rest ih => intro p hp; exact ih (stepLog p r) (logWF_step p r hp)
  exact hgen rs (initStore, []) logWF_init

theorem issued_lt_nextId (rs : List Req) (i : Nat)
    (hi : i ∈ (runLog rs).2) : i < (runLog rs).1.nextId := by
  obtain ⟨h1, h2⟩ := logWF_runLog rs
  rw [h2] at hi
  rw [List.mem_range'] at hi
  obtain ⟨j, hj, rfl⟩ := hi
  omega

theorem issued_pairwise (rs : List Req) :
    List.Pairwise (· < ·) (runLog rs).2 := by
  obtain ⟨_, h2⟩ := logWF_runLog rs
  rw [h2]
  exact List.pairwise_lt_range' 1 (runLog rs).2.length 1

/-! ### Claims -/

/-- C1 counterexample: the state reached by a POST followed by
`PUT {title: "   "}` is reachable, yet holds a record whose title is
whitespace-only — the PUT handler stores a provided title verbatim,
without validation or trimming. -/
theorem C1_counterexample :
    Reachable blankTitleStore ∧ ¬ titlesValid blankTitleStore := by
  constructor
  · exact ⟨_, rfl⟩
  · intro hv
    have hmem : (⟨1, "   ", false, "2024-01-01T00:00:00.000Z"⟩ : Todo) ∈
        blankTitleStore.todos := by decide
    exact hv _ hmem (by decide)

/-- C1 (amended): for every sequence of POST/PUT/DELETE requests from the
empty store in which no PUT supplies a `title` that is empty after
trimming, every todo record in the resulting store has a title that is
non-empty and not whitespace-only. -/
theorem C1_titles_nonblank (rs : List Req)
    (hk : ∀ r ∈ rs, keepsTitle r = true) :
    titlesValid (runReqs initStore rs) :=
  titlesValid_run rs initStore hk titlesValid_init

/-- C1 witness: a concrete POST/PUT/DELETE sequence whose PUTs either
rename to a valid title or supply no title satisfies the invariant. -/
theorem C1_witness :
    (∀ r ∈ [Req.post (some "  a  ") "T0",
        Req.put (some 1) (some " renamed ") (some true),
        Req.put (some 1) none (some false), Req.del (some 1)],
      keepsTitle r = true) ∧
    titlesValid (runReqs initStore
      [Req.post (some "  a  ") "T0",
       Req.put (some 1) (some " renamed ") (some true),
       Req.put (some 1) none (some false), Req.del (some 1)]) :=
  ⟨by decide,
   C1_titles_nonblank
     [Req.post (some "  a  ") "T0",
      Req.put (some 1) (some " renamed ") (some true),
      Req.put (some 1) none (some false), Req.del (some 1)] (by decide)⟩

/-- C2: for a title that is non-empty after trimming, POST responds 201 with
a record whose title is the trimmed title, `completed = false`, and whose id
is the current counter — strictly greater than every previously issued id. -/
theorem C2_post_valid_title (rs : List Req) (title now : String)
    (h : jsTrim title ≠ "") :
    postTodos (runLog rs).1 (some title) now =
      ({ status := 201,
         body := Body.todoB
           { id := (runLog rs).1.nextId, title := jsTrim title,
             completed := false, createdAt := now } },
       { todos := (runLog rs).1.todos ++
           [{ id := (runLog rs).1.nextId, title := jsTrim title,
              completed := false, createdAt := now }],
         nextId := (runLog rs).1.nextId + 1 }) ∧
    ∀ i ∈ (runLog rs).2, i < (runLog rs).1.nextId := by
  constructor
  · have hne : title ≠ "" := ne_empty_of_jsTrim_ne title h
    simp [postTodos, hne, h]
  · exact fun i hi => issued_lt_nextId rs i hi

/-- C2 witness: the spec's own scenario `POST {title: "  Trimmed  "}` at
process start. -/
theorem C2_witness :
    jsTrim "  Trimmed  " ≠ "" ∧
    (postTodos (runLog []).1 (some "  Trimmed  ") "2024-01-01T00:00:00.000Z" =
      ({ status := 201,
         body := Body.todoB
           { id := (runLog []).1.nextId, title := jsTrim "  Trimmed  ",
             completed := false,
             createdAt := "2024-01-01T00:00:00.000Z" } },
       { todos := (runLog []).1.todos ++
           [{ id := (runLog []).1.nextId, title := jsTrim "  Trimmed  ",
              completed := false,
              createdAt := "2024-01-01T00:00:00.000Z" }],
         nextId := (runLog []).1.nextId + 1 }) ∧
     ∀ i ∈ (runLog []).2, i < (runLog []).1.nextId) :=
  ⟨by decide,
   C2_post_valid_title [] "  Trimmed  " "2024-01-01T00:00:00.000Z"
     (by decide)⟩

/-- C3: POST with an absent title, or a title empty after trimming, responds
400 `{error: "Title is required"}` and returns the store unchanged. -/
theorem C3_post_invalid (s : Store) (otitle : Option String) (now : String)
    (h : otitle = none ∨ ∃ t, otitle = some t ∧ jsTrim t = "") :
    postTodos s otitle now =
      ({ status := 400, body := Body.errB "Title is required" }, s) := by
  rcases h with h | ⟨t, rfl, ht⟩
  · rw [h]; rfl
  · simp [postTodos, ht]

/-- C3 witness: `POST {title: "   "}` against the singleton store. -/
theorem C3_witness :
    ((some "   " : Option String) = none ∨
      ∃ t, (some "   " : Option String) = some t ∧ jsTrim t = "") ∧
    postTodos demoStore (some "   ") "T1" =
      ({ status := 400, body := Body.errB "Title is required" }, demoStore) :=
  ⟨Or.inr ⟨"   ", rfl, by decide⟩,
   C3_post_invalid demoStore (some "   ") "T1"
     (Or.inr ⟨"   ", rfl, by decide⟩)⟩

/-- C4: when the id is found, PUT responds 200 with a record keeping the old
id and createdAt, whose title/completed are the provided values when present
and the old ones when absent; across the store, ids and createdAt are
untouched, and an absent field is untouched in every record. -/
theorem C4_put_frame (s : Store) (n : Int) (t : Todo) (otitle : Option String)
    (oc : Option Bool) (hf : findTodo s.todos (some n) = some t) :
    (putTodo s (some n) otitle oc).1.status = 200 ∧
    (∃ t2, (putTodo s (some n) otitle oc).1.body = Body.todoB t2 ∧
      t2.id = t.id ∧ t2.createdAt = t.createdAt ∧
      t2.title = otitle.getD t.title ∧
      t2.completed = oc.getD t.completed) ∧
    (putTodo s (some n) otitle oc).2.nextId = s.nextId ∧
    (putTodo s (some n) otitle oc).2.todos.map Todo.id =
      s.todos.map Todo.id ∧
    (putTodo s (some n) otitle oc).2.todos.map Todo.createdAt =
      s.todos.map Todo.createdAt ∧
    (otitle = none →
      (putTodo s (some n) otitle oc).2.todos.map Todo.title =
        s.todos.map Todo.title) ∧
    (oc = none →
      (putTodo s (some n) otitle oc).2.todos.map Todo.completed =
        s.todos.map Todo.completed) := by
  have hp : putTodo s (some n) otitle oc =
      ({ status := 200, body := Body.todoB (updTodo t otitle oc) },
       { todos := updateFirst s.todos (matchesId (some n))
           (fun u => updTodo u otitle oc),
         nextId := s.nextId }) := by
    simp [putTodo, hf]
  rw [hp]
  refine ⟨rfl, ⟨updTodo t otitle oc, rfl, rfl, rfl, rfl, rfl⟩, rfl,
    ?_, ?_, ?_, ?_⟩
  · exact updateFirst_map s.todos (matchesId (some n))
      (fun u => updTodo u otitle oc) Todo.id (fun x => rfl)
  · exact updateFirst_map s.todos (matchesId (some n))
      (fun u => updTodo u otitle oc) Todo.createdAt (fun x => rfl)
  · intro h0
    subst h0
    exact updateFirst_map s.todos (matchesId (some n))
      (fun u => updTodo u none oc) Todo.title (fun x => rfl)
  · intro h0
    subst h0
    exact updateFirst_map s.todos (matchesId (some n))
      (fun u => updTodo u otitle none) Todo.completed (fun x => rfl)

/-- C4 witness: `PUT /todos/1 {completed: true}` on the singleton store. -/
theorem C4_witness :
    findTodo demoStore.todos (some 1) = some demoTodo ∧
    ((putTodo demoStore (some 1) none (some true)).1.status = 200 ∧
     (∃ t2, (putTodo demoStore (some 1) none (some true)).1.body =
        Body.todoB t2 ∧
       t2.id = demoTodo.id ∧ t2.createdAt = demoTodo.createdAt ∧
       t2.title = Option.getD none demoTodo.title ∧
       t2.completed = Option.getD (some true) demoTodo.completed) ∧
     (putTodo demoStore (some 1) none (some true)).2.nextId =
       demoStore.nextId ∧
     (putTodo demoStore (some 1) none (some true)).2.todos.map Todo.id =
       demoStore.todos.map Todo.id ∧
     (putTodo demoStore (some 1) none (some true)).2.todos.map
         Todo.createdAt = demoStore.todos.map Todo.createdAt ∧
     ((none : Option String) = none →
       (putTodo demoStore (some 1) none (some true)).2.todos.map
           Todo.title = demoStore.todos.map Todo.title) ∧
     ((some true : Option Bool) = none →
       (putTodo demoStore (some 1) none (some true)).2.todos.map
           Todo.completed = demoStore.todos.map Todo.completed)) :=
  ⟨by decide,
   C4_put_frame demoStore 1 demoTodo none (some true) (by decide)⟩

/-- C5: a numeric id matching no record yields 404
`{error: "Todo not found"}` from GET, PUT and DELETE, with the store
unchanged. -/
theorem C5_unknown_id (s : Store) (n : Int) (otitle : Option String)
    (oc : Option Bool) (h : ∀ t ∈ s.todos, (t.id : Int) ≠ n) :
    getTodoById s (some n) =
      ({ status := 404, body := Body.errB "Todo not found" }, s) ∧
    putTodo s (some n) otitle oc =
      ({ status := 404, body := Body.errB "Todo not found" }, s) ∧
    deleteTodo s (some n) =
      ({ status := 404, body := Body.errB "Todo not found" }, s) := by
  have hfind : findTodo s.todos (some n) = none :=
    List.find?_eq_none.mpr (fun x hx => by
      simp only [matchesId, beq_iff_eq]
      exact h x hx)
  have hrm : removeFirst s.todos (matchesId (some n)) = none :=
    removeFirst_eq_none_of _ _ (fun x hx => by
      simp only [matchesId, beq_eq_false_iff_ne, ne_eq]
      exact h x hx)
  exact ⟨by simp [getTodoById, hfind], by simp [putTodo, hfind],
    by simp [deleteTodo, hrm]⟩

/-- C5 witness: id 99999 against the singleton store. -/
theorem C5_witness :
    (∀ t ∈ demoStore.todos, (t.id : Int) ≠ 99999) ∧
    (getTodoById demoStore (some 99999) =
       ({ status := 404, body := Body.errB "Todo not found" }, demoStore) ∧
     putTodo demoStore (some 99999) (some "u") (some true) =
       ({ status := 404, body := Body.errB "Todo not found" }, demoStore) ∧
     deleteTodo demoStore (some 99999) =
       ({ status := 404, body := Body.errB "Todo not found" }, demoStore)) :=
  ⟨by decide,
   C5_unknown_id demoStore 99999 (some "u") (some true) (by decide)⟩

/-- C6: for a todo present in a reachable store, DELETE responds 200 with
the deleted record in the body (under the `todo` key of
`{message, todo}`), removes it so no remaining record carries its id, and a
subsequent GET on the same id answers 404. -/
theorem C6_delete_removes (s : Store) (n : Nat) (hre : Reachable s)
    (hmem : ∃ t ∈ s.todos, t.id = n) :
    (deleteTodo s (some (n : Int))).1.status = 200 ∧
    (∃ t ∈ s.todos, t.id = n ∧
      (deleteTodo s (some (n : Int))).1.body =
        Body.deleteB "Todo deleted successfully" t) ∧
    (∀ u ∈ (deleteTodo s (some (n : Int))).2.todos, u.id ≠ n) ∧
    (deleteTodo s (some (n : Int))).2.nextId = s.nextId ∧
    (deleteTodo s (some (n : Int))).2.todos.length + 1 = s.todos.length ∧
    getTodoById (deleteTodo s (some (n : Int))).2 (some (n : Int)) =
      ({ status := 404, body := Body.errB "Todo not found" },
       (deleteTodo s (some (n : Int))).2) := by
  obtain ⟨t0, ht0, hid0⟩ := hmem
  cases hrm : removeFirst s.todos (matchesId (some (n : Int))) with
  | none =>
    exfalso
    have hall := forall_false_of_removeFirst_none _ _ hrm t0 ht0
    simp only [matchesId, beq_eq_false_iff_ne, ne_eq, Int.natCast_inj] at hall
    exact hall hid0
  | some pr =>
    have hd : deleteTodo s (some (n : Int)) =
        ({ status := 200,
           body := Body.deleteB "Todo deleted successfully" pr.1 },
         { todos := pr.2, nextId := s.nextId }) := by
      simp [deleteTodo, hrm]
    obtain ⟨l1, l2, e1, e2, e3, e4⟩ :=
      removeFirst_decomp s.todos (matchesId (some (n : Int))) pr.1 pr.2
        (by rw [hrm])
    have hprid : pr.1.id = n := by
      simp only [matchesId, beq_iff_eq, Int.natCast_inj] at e3
      exact e3
    have hprmem : pr.1 ∈ s.todos := by
      rw [e1]; simp
    obtain ⟨hpw, _, _⟩ := reachable_storeWF s hre
    have hnone : ∀ u ∈ pr.2, u.id ≠ n := by
      rw [e1, List.map_append, List.map_cons, List.pairwise_append] at hpw
      obtain ⟨hl1, hl2, hcross⟩ := hpw
      intro u hu
      rcases List.mem_append.mp (e2 ▸ hu) with h1 | h1
      · have hne := e4 u h1
        simp only [matchesId, beq_eq_false_iff_ne, ne_eq, Int.natCast_inj]
          at hne
        exact hne
      · have hlt : pr.1.id < u.id :=
          (List.pairwise_cons.mp hl2).1 u.id (List.mem_map.mpr ⟨u, h1, rfl⟩)
        omega
    have hf2 : findTodo pr.2 (some (n : Int)) = none :=
      List.find?_eq_none.mpr (fun x hx => by
        simp only [matchesId, beq_iff_eq, Int.natCast_inj]
        exact hnone x hx)
    refine ⟨by rw [hd], ⟨pr.1, hprmem, hprid, by rw [hd]⟩, ?_, by rw [hd],
      ?_, ?_⟩
    · intro u hu
      rw [hd] at hu
      exact hnone u hu
    · rw [hd, e2, e1]
      simp only [List.length_append, List.length_cons]
      omega
    · rw [hd]
      simp [getTodoById, hf2]

/-- C6 witness: delete the only record of the store reached by one POST. -/
theorem C6_witness :
    (Reachable postedStore ∧ ∃ t ∈ postedStore.todos, t.id = 1) ∧
    ((deleteTodo postedStore (some ((1 : Nat) : Int))).1.status = 200 ∧
     (∃ t ∈ postedStore.todos, t.id = 1 ∧
       (deleteTodo postedStore (some ((1 : Nat) : Int))).1.body =
         Body.deleteB "Todo deleted successfully" t) ∧
     (∀ u ∈ (deleteTodo postedStore (some ((1 : Nat) : Int))).2.todos,
       u.id ≠ 1) ∧
     (deleteTodo postedStore (some ((1 : Nat) : Int))).2.nextId =
       postedStore.nextId ∧
     (deleteTodo postedStore (some ((1 : Nat) : Int))).2.todos.length + 1 =
       postedStore.todos.length ∧
     getTodoById (deleteTodo postedStore (some ((1 : Nat) : Int))).2
         (some ((1 : Nat) : Int)) =
       ({ status := 404, body := Body.errB "Todo not found" },
        (deleteTodo postedStore (some ((1 : Nat) : Int))).2)) :=
  ⟨⟨⟨[Req.post (some "x") "T0"], rfl⟩, by decide⟩,
   C6_delete_removes postedStore 1 ⟨[Req.post (some "x") "T0"], rfl⟩
     (by decide)⟩

/-- C7: across any request sequence from process start, the ids issued by
successful creates are strictly increasing, hence pairwise distinct — no id
is ever reused, not even after a DELETE frees it. -/
theorem C7_ids_never_reused (rs : List Req) :
    List.Pairwise (· < ·) (runLog rs).2 ∧ ((runLog rs).2).Nodup :=
  ⟨issued_pairwise rs, (issued_pairwise rs).nodup⟩

/-- C8: GET /todos answers 200 with exactly the stored records and
`count = todos.length`; in every reachable store the records' ids are
strictly increasing, i.e. the list is in creation (insertion) order with
deleted records removed. -/
theorem C8_list_all (s : Store) (h : Reachable s) :
    getTodos s =
      ({ status := 200, body := Body.listB s.todos s.todos.length }, s) ∧
    List.Pairwise (· < ·) (s.todos.map Todo.id) :=
  ⟨rfl, (reachable_storeWF s h).1⟩

/-- C8 witness: the store reached by one POST. -/
theorem C8_witness :
    Reachable postedStore ∧
    (getTodos postedStore =
      ({ status := 200,
         body := Body.listB postedStore.todos postedStore.todos.length },
       postedStore) ∧
     List.Pairwise (· < ·) (postedStore.todos.map Todo.id)) :=
  ⟨⟨[Req.post (some "x") "T0"], rfl⟩,
   C8_list_all postedStore ⟨[Req.post (some "x") "T0"], rfl⟩⟩

/-- C9 counterexample: the generated correlation id is a pure function of
the millisecond clock and the random suffix, so two header-less requests
that draw the same pair get identical response headers — uniqueness per
request is not guaranteed by the code. -/
theorem C9_counterexample :
    ¬ (responseHeaders
        [(none, "1712000000000", "k3j9x2m1p"),
         (none, "1712000000000", "k3j9x2m1p")]).Nodup := by
  decide

/-- C9 (amended): a request carrying `X-Correlation-ID:
"test-correlation-id"` is answered with exactly that header, and a request
без header — omitted — gets a non-empty generated header; uniqueness holds
only when the (timestamp, random-suffix) pairs differ. -/
theorem C9_echo_nonempty (nowMs randSuffix : String) :
    correlationId (some "test-correlation-id") nowMs randSuffix =
      "test-correlation-id" ∧
    correlationId none nowMs randSuffix ≠ "" := by
  constructor
  · have hne : ("test-correlation-id" : String) ≠ "" := by decide
    simp [correlationId, hne]
  · intro he
    have he2 : nowMs ++ "-" ++ randSuffix = "" := he
    have hlen := congrArg String.length he2
    rw [String.length_append, String.length_append] at hlen
    have hdash : ("-" : String).length = 1 := rfl
    have hempty : ("" : String).length = 0 := rfl
    rw [hdash, hempty] at hlen
    omega

/-- C10: an id segment that parses to NaN matches no record, so GET, PUT
and DELETE each answer 404 `{error: "Todo not found"}` and leave any store
unchanged. -/
theorem C10_nan_id (s : Store) (otitle : Option String) (oc : Option Bool) :
    getTodoById s none =
      ({ status := 404, body := Body.errB "Todo not found" }, s) ∧
    putTodo s none otitle oc =
      ({ status := 404, body := Body.errB "Todo not found" }, s) ∧
    deleteTodo s none =
      ({ status := 404, body := Body.errB "Todo not found" }, s) := by
  have hfind : findTodo s.todos none = none :=
    List.find?_eq_none.mpr (fun x hx => by simp [matchesId])
  have hrm : removeFirst s.todos (matchesId none) = none :=
    removeFirst_eq_none_of _ _ (fun x hx => rfl)
  exact ⟨by simp [getTodoById, hfind], by simp [putTodo, hfind],
    by simp [deleteTodo, hrm]⟩

end TodoApp
